import Mathlib

set_option maxHeartbeats 1000000
set_option maxRecDepth 8192

/-!
Verification development for line_intersection.js: the functions
`getLineIntersectionData` and `getTrendlineData`.

JavaScript numbers are modelled as `Option ℚ`: `some q` is an ordinary
numeric value and `none` stands for the non-numeric values `undefined` and
`NaN` that the library produces when it reads a missing coordinate or does
arithmetic on one.  Every relational comparison involving `none` is false,
matching NaN/undefined semantics, and `none == x` is false, which matches
every `==` the library can reach (each such compare has a number or NaN on
at least one side, never `undefined` on both).  Rational arithmetic is
exact; the only division the library performs on real numbers is by a
denominator it has already checked to be nonzero, so the `q / 0` corner of
`Rat` division is never exercised on the paths any theorem below touches.

Labeled point objects (the `icptPoint` option as a highcharts-style
object) are modelled by reference: a store maps object ids to their
current `x`/`y` fields plus one representative untouched extra field, so
that the in-place mutation `opt.icptPoint.x = icptX` and aliasing between
the option object and line elements are expressible.
-/

abbrev JsNum := Option ℚ

/-- JS subtraction lifted to possibly-NaN numbers. -/
def jsub : JsNum → JsNum → JsNum
  | some a, some b => some (a - b)
  | _, _ => none

/-- JS multiplication lifted to possibly-NaN numbers. -/
def jmul : JsNum → JsNum → JsNum
  | some a, some b => some (a * b)
  | _, _ => none

/-- JS division as used by the library: the library divides only after
checking the denominator is not `== 0`, so a zero real denominator is
unreachable; NaN operands propagate. -/
def jdiv : JsNum → JsNum → JsNum
  | some a, some b => if b = 0 then none else some (a / b)
  | _, _ => none

/-- JS `<` on numbers; false when either side is NaN/undefined. -/
def jlt : JsNum → JsNum → Bool
  | some a, some b => decide (a < b)
  | _, _ => false

/-- JS `>` on numbers; false when either side is NaN/undefined. -/
def jgt : JsNum → JsNum → Bool
  | some a, some b => decide (b < a)
  | _, _ => false

/-- JS `<=` on numbers; false when either side is NaN/undefined. -/
def jle : JsNum → JsNum → Bool
  | some a, some b => decide (a ≤ b)
  | _, _ => false

/-- JS `>=` on numbers; false when either side is NaN/undefined. -/
def jge : JsNum → JsNum → Bool
  | some a, some b => decide (b ≤ a)
  | _, _ => false

/-- JS `==` for the numeric compares the library performs.  In every
reachable use at least one side is a number or NaN (never `undefined` on
both sides), so `none` compares unequal to everything. -/
def jeq : JsNum → JsNum → Bool
  | some a, some b => decide (a = b)
  | _, _ => false

/-- JS truthiness of a number: `0`, `NaN` and `undefined` are falsy. -/
def truthy : JsNum → Bool
  | some q => decide (q ≠ 0)
  | none => false

/-- A labeled point object (`{x: .., y: .., ...}`): its `x`/`y` fields and
one representative extra field the library never touches. -/
structure ObjPt where
  x : JsNum
  y : JsNum
  extra : ℚ
  deriving DecidableEq, Repr

/-- The object store: ids of labeled point objects to their current state. -/
abbrev Store := Nat → ObjPt

/-- One element of a line array: a 2-element array `[x, y]` (coordinates may
be NaN), a reference to a labeled point object, or a bare number (a
malformed element the validation loop does not look at). -/
inductive PtVal where
  | pt (x y : JsNum)
  | ref (r : Nat)
  | num (q : ℚ)
  deriving DecidableEq, Repr

/-- Direct index read `p[0]`: arrays yield their first entry, objects and
numbers have no property `0` and yield `undefined`. -/
def idx0 : PtVal → JsNum
  | .pt x _ => x
  | _ => none

/-- Direct index read `p[1]`. -/
def idx1 : PtVal → JsNum
  | .pt _ y => y
  | _ => none

/-- The comparator's x read `a[0] || a.x`: on an array a falsy first entry
(0 or NaN) falls through to the absent `.x` field, i.e. `undefined`; on an
object `a[0]` is `undefined` so `.x` is read from the store; on a bare
number both reads are `undefined`. -/
def sortX (s : Store) : PtVal → JsNum
  | .pt x _ => if truthy x then x else none
  | .ref r => (s r).x
  | .num _ => none

/-- The comparator's y read `a[1] || a.y`. -/
def sortY (s : Store) : PtVal → JsNum
  | .pt _ y => if truthy y then y else none
  | .ref r => (s r).y
  | .num _ => none

/-- The sort comparator of `getLineIntersectionData`, direction flags
included. -/
def lineCmp (s : Store) (xAsc yAsc : Bool) (a b : PtVal) : Int :=
  let ax := sortX s a
  let ay := sortY s a
  let bx := sortX s b
  let bky := sortY s b
  if jlt ax bx then (if xAsc then -1 else 1)
  else if jgt ax bx then (if xAsc then 1 else -1)
  else if jlt ay bky then (if yAsc then -1 else 1)
  else if jgt ay bky then (if yAsc then 1 else -1)
  else 0

/-- Stable insertion of one element into an already processed prefix: the
new element goes before the first element it compares strictly below.  This
is the behaviour of the engine's stable `Array.prototype.sort` on the small
arrays the library builds. -/
def insertCmp (cmp : PtVal → PtVal → Int) (x : PtVal) : List PtVal → List PtVal
  | [] => [x]
  | y :: ys => if cmp x y < 0 then x :: y :: ys else y :: insertCmp cmp x ys

/-- Stable comparator sort (elements processed left to right). -/
def sortJs (cmp : PtVal → PtVal → Int) (l : List PtVal) : List PtVal :=
  l.foldl (fun acc e => insertCmp cmp e acc) []

/-- First element of a line (lines reaching this read are nonempty). -/
def firstPt : List PtVal → PtVal
  | [] => .num 0
  | a :: _ => a

/-- Last element of a line (`line[line.length - 1]`). -/
def lastPt : List PtVal → PtVal
  | [] => .num 0
  | [a] => a
  | _ :: b :: rest => lastPt (b :: rest)

/-- The existing-point scan of the insertion loop: the first element whose
`[0]`/`[1]` reads are `==` the intersection coordinates is replaced by the
materialized intercept point; `none` if no element matches. -/
def replaceEq (icx icy : JsNum) (p : PtVal) : List PtVal → Option (List PtVal)
  | [] => none
  | e :: rest =>
    if jeq (idx0 e) icx && jeq (idx1 e) icy then some (p :: rest)
    else (replaceEq icx icy p rest).map fun l => e :: l

/-- The per-line insertion step: replace a coordinate-equal existing point,
otherwise detect each axis's direction from the first and last point, push
the new point and comparator-sort the whole line. -/
def insertPoint (s : Store) (icx icy : JsNum) (p : PtVal) (line : List PtVal) :
    List PtVal :=
  match replaceEq icx icy p line with
  | some done => done
  | none =>
    let xAsc := jle (idx0 (firstPt line)) (idx0 (lastPt line))
    let yAsc := jle (idx1 (firstPt line)) (idx1 (lastPt line))
    sortJs (lineCmp s xAsc yAsc) (line ++ [p])

/-- A hook option value as typeof-dispatched by the library: an invocable
function (returning `some b` for a boolean, `none` for any other value —
only `=== false` is ever consulted), or a non-function value. -/
inductive HookOpt where
  | fn (f : JsNum → JsNum → Option Bool)
  | notFn

/-- The `onParallel` option: its return value is never consulted. -/
inductive ParOpt where
  | fn
  | notFn
  deriving DecidableEq, Repr

/-- The `icptPoint` option: an array (replaced wholesale by
`[icptX, icptY]`), a labeled object (mutated in place), or a value of any
other type (rejected). -/
inductive IcptOpt where
  | arrv
  | objRef (r : Nat)
  | badIcpt
  deriving DecidableEq, Repr

/-- The recognized keys of `user_options`; `none` means the key is absent
and the built-in default survives the merge loop. -/
structure UserOptions where
  icptPoint : Option IcptOpt := none
  onParallel : Option ParOpt := none
  onLinesAlreadyIntersect : Option HookOpt := none
  validateIntersection : Option HookOpt := none

/-- The third argument: absent (defaulted to `{}`), a non-object value, or
an options object. -/
inductive UserArg where
  | absent
  | notObj
  | obj (o : UserOptions)

/-- Options after the merge loop copied recognized user keys over the
defaults. -/
structure MOpts where
  icptPoint : IcptOpt
  onParallel : ParOpt
  already : HookOpt
  validate : HookOpt

/-- Default `onLinesAlreadyIntersect`: returns `true`. -/
def defaultAlready : HookOpt := .fn fun _ _ => some true

/-- Default `validateIntersection`: returns `true`. -/
def defaultValidate : HookOpt := .fn fun _ _ => some true

/-- The merge of user options over the built-in defaults. -/
def mergeOpts : UserArg → MOpts
  | .obj o =>
    { icptPoint := o.icptPoint.getD .arrv
      onParallel := o.onParallel.getD .fn
      already := o.onLinesAlreadyIntersect.getD defaultAlready
      validate := o.validateIntersection.getD defaultValidate }
  | _ =>
    { icptPoint := .arrv, onParallel := .fn
      already := defaultAlready, validate := defaultValidate }

/-- A line argument: `null`/`undefined`, a non-array value, or an array
with an identity (so that the returned copies can be told apart from the
caller's arrays). -/
inductive LineArg where
  | missing
  | notArr
  | arr (aid : Nat) (l : List PtVal)

/-- Is a line element an array (`Object.prototype.toString` check)? -/
def isArrayElem : PtVal → Bool
  | .pt _ _ => true
  | _ => false

/-- The argument-form validation: the value is an array whose elements at
indices 0 and 1 are arrays (elements elsewhere are not inspected). -/
def firstTwoOk (l : List PtVal) : Bool :=
  (match l[0]? with | some e => isArrayElem e | none => false)
    && (match l[1]? with | some e => isArrayElem e | none => false)

def msgForm : String :=
  "The first two arguments should each be of the form [[x1, y1], [x2, y2], ... [xn, yn]]"
def msgLen : String := "Each line must have at least two point"
def msgOpts : String := "user_options argument must be an object"
def msgPar : String := "onParallel must be a function"
def msgAlready : String := "onLinesAlreadyMeet must be a function"
def msgValidate : String := "validateIntersection must be a function"
def msgIcpt : String := "Invalid icptPoint"

/-- The success value: intersection coordinates and the two new lines, each
an array identity paired with its contents. -/
structure IcptRes where
  icptX : JsNum
  icptY : JsNum
  line1_data : Nat × List PtVal
  line2_data : Nat × List PtVal
  deriving DecidableEq, Repr

/-- The observable outcome of a call: the returned value (`none` is the
`undefined` no-result signal), the final object store, the `console.error`
diagnostics in order, and which hooks were invoked. -/
structure RunOut where
  result : Option IcptRes
  store : Store
  errors : List String
  parallelCalled : Bool
  alreadyCalled : Bool
  validateCalled : Bool

/-- An early `console.error` + `return` exit. -/
def errOut (s0 : Store) (msg : String) : RunOut :=
  { result := none, store := s0, errors := [msg], parallelCalled := false
    alreadyCalled := false, validateCalled := false }

/-- Is a hook value invocable? -/
def hookIsFn : HookOpt → Bool
  | .fn _ => true
  | .notFn => false

/-- Did invoking the hook return exactly `false`?  (Non-functions are not
invoked.) -/
def hookRetFalse : HookOpt → JsNum → JsNum → Bool
  | .fn f, a, b => decide (f a b = some false)
  | .notFn, _, _ => false

/-- The store after `opt.icptPoint.x = icptX; opt.icptPoint.y = icptY` on
the object with id `r`. -/
def updStore (s0 : Store) (r : Nat) (icx icy : JsNum) : Store := fun j =>
  if j = r then { x := icx, y := icy, extra := (s0 r).extra } else s0 j

/-- The part of `getLineIntersectionData` from the already-intersecting
check onwards, given the computed intersection point and the result of the
segment-containment test `icptX >= x1 && icptX <= x2 && icptX >= x3 &&
icptX <= x4`. -/
def intersectCore (i1 i2 : Nat) (l1 l2 : List PtVal) (o : MOpts) (s0 : Store)
    (icptX icptY : JsNum) (hit : Bool) : RunOut :=
  let aCalled := hit && hookIsFn o.already
  let aErrs : List String := if hit && !hookIsFn o.already then [msgAlready] else []
  if hit && hookRetFalse o.already icptX icptY then
    { result := none, store := s0, errors := aErrs, parallelCalled := false
      alreadyCalled := aCalled, validateCalled := false }
  else
    let vCalled := hookIsFn o.validate
    let vErrs : List String := if !hookIsFn o.validate then [msgValidate] else []
    if hookRetFalse o.validate icptX icptY then
      { result := none, store := s0, errors := aErrs ++ vErrs, parallelCalled := false
        alreadyCalled := aCalled, validateCalled := vCalled }
    else
      match o.icptPoint with
      | .badIcpt =>
        { result := none, store := s0, errors := aErrs ++ vErrs ++ [msgIcpt]
          parallelCalled := false, alreadyCalled := aCalled, validateCalled := vCalled }
      | .arrv =>
        let p := PtVal.pt icptX icptY
        { result := some
            { icptX := icptX, icptY := icptY
              line1_data := (max i1 i2 + 1, insertPoint s0 icptX icptY p l1)
              line2_data := (max i1 i2 + 2, insertPoint s0 icptX icptY p l2) }
          store := s0, errors := aErrs ++ vErrs, parallelCalled := false
          alreadyCalled := aCalled, validateCalled := vCalled }
      | .objRef r =>
        let s1 := updStore s0 r icptX icptY
        let p := PtVal.ref r
        { result := some
            { icptX := icptX, icptY := icptY
              line1_data := (max i1 i2 + 1, insertPoint s1 icptX icptY p l1)
              line2_data := (max i1 i2 + 2, insertPoint s1 icptX icptY p l2) }
          store := s1, errors := aErrs ++ vErrs, parallelCalled := false
          alreadyCalled := aCalled, validateCalled := vCalled }

/-- The denominator `(x1-x2)*(y3-y4) - (y1-y2)*(x3-x4)` read off the first
and last points of the two lines. -/
def denomOf (l1 l2 : List PtVal) : JsNum :=
  jsub (jmul (jsub (idx0 (firstPt l1)) (idx0 (lastPt l1)))
             (jsub (idx1 (firstPt l2)) (idx1 (lastPt l2))))
       (jmul (jsub (idx1 (firstPt l1)) (idx1 (lastPt l1)))
             (jsub (idx0 (firstPt l2)) (idx0 (lastPt l2))))

/-- The x numerator of the intersection formula on the two lines. -/
def xNumOf (l1 l2 : List PtVal) : JsNum :=
  jsub (jmul (jsub (jmul (idx0 (firstPt l1)) (idx1 (lastPt l1)))
                   (jmul (idx1 (firstPt l1)) (idx0 (lastPt l1))))
             (jsub (idx0 (firstPt l2)) (idx0 (lastPt l2))))
       (jmul (jsub (idx0 (firstPt l1)) (idx0 (lastPt l1)))
             (jsub (jmul (idx0 (firstPt l2)) (idx1 (lastPt l2)))
                   (jmul (idx1 (firstPt l2)) (idx0 (lastPt l2)))))

/-- The y numerator of the intersection formula on the two lines. -/
def yNumOf (l1 l2 : List PtVal) : JsNum :=
  jsub (jmul (jsub (jmul (idx0 (firstPt l1)) (idx1 (lastPt l1)))
                   (jmul (idx1 (firstPt l1)) (idx0 (lastPt l1))))
             (jsub (idx1 (firstPt l2)) (idx1 (lastPt l2))))
       (jmul (jsub (idx1 (firstPt l1)) (idx1 (lastPt l1)))
             (jsub (jmul (idx0 (firstPt l2)) (idx1 (lastPt l2)))
                   (jmul (idx1 (firstPt l2)) (idx0 (lastPt l2)))))

/-- `icptX` as computed by the source. -/
def icptXOf (l1 l2 : List PtVal) : JsNum := jdiv (xNumOf l1 l2) (denomOf l1 l2)

/-- `icptY` as computed by the source. -/
def icptYOf (l1 l2 : List PtVal) : JsNum := jdiv (yNumOf l1 l2) (denomOf l1 l2)

/-- The raw-order containment test
`icptX >= x1 && icptX <= x2 && icptX >= x3 && icptX <= x4`. -/
def hitOf (l1 l2 : List PtVal) : Bool :=
  jge (icptXOf l1 l2) (idx0 (firstPt l1)) && jle (icptXOf l1 l2) (idx0 (lastPt l1)) &&
  jge (icptXOf l1 l2) (idx0 (firstPt l2)) && jle (icptXOf l1 l2) (idx0 (lastPt l2))

/-- The geometric part of `getLineIntersectionData` on validated lines:
first/last coordinates, denominator, the parallel exit, the intersection
point and the segment-containment test. -/
def intersectBody (i1 i2 : Nat) (l1 l2 : List PtVal) (o : MOpts) (s0 : Store) :
    RunOut :=
  if jeq (denomOf l1 l2) (some 0) then
    match o.onParallel with
    | .fn =>
      { result := none, store := s0, errors := [], parallelCalled := true
        alreadyCalled := false, validateCalled := false }
    | .notFn =>
      { result := none, store := s0, errors := [msgPar], parallelCalled := false
        alreadyCalled := false, validateCalled := false }
  else
    intersectCore i1 i2 l1 l2 o s0 (icptXOf l1 l2) (icptYOf l1 l2) (hitOf l1 l2)

/-- The full `getLineIntersectionData`: argument-form validation, length
check, options-shape check, then the geometric body on shallow copies of
the two lines (the returned arrays get fresh identities, the inputs are
never written). -/
def getLineIntersectionData (a1 a2 : LineArg) (ua : UserArg) (s0 : Store) : RunOut :=
  match a1, a2 with
  | .arr i1 l1, .arr i2 l2 =>
    if firstTwoOk l1 && firstTwoOk l2 then
      if l1.length ≤ 1 ∨ l2.length ≤ 1 then errOut s0 msgLen
      else
        match ua with
        | .notObj => errOut s0 msgOpts
        | .absent => intersectBody i1 i2 l1 l2 (mergeOpts .absent) s0
        | .obj o => intersectBody i1 i2 l1 l2 (mergeOpts (.obj o)) s0
    else errOut s0 msgForm
  | _, _ => errOut s0 msgForm

/-- One element of the `getTrendlineData` input: `null`, a 2-element array
whose coordinates may be `null`, a bare number (categorical mode), or a
value of any other type. -/
inductive Sample where
  | snull
  | spair (x y : Option ℚ)
  | snum (q : ℚ)
  | sother
  deriving DecidableEq, Repr

/-- The filter loop of `getTrendlineData`: arrays with both coordinates
non-null contribute `(x, y)`; bare numbers at position `i` contribute
`(i, value)`; everything else is skipped.  The position counter advances on
skipped elements too, exactly as the loop index does. -/
def retained : List Sample → Nat → List (ℚ × ℚ)
  | [], _ => []
  | .spair (some x) (some y) :: rest, i => (x, y) :: retained rest (i + 1)
  | .snum q :: rest, i => ((i : ℚ), q) :: retained rest (i + 1)
  | _ :: rest, i => retained rest (i + 1)

/-- Accumulated `SX` of the regression loop. -/
def sumX (l : List (ℚ × ℚ)) : ℚ := l.foldl (fun a p => a + p.1) 0

/-- Accumulated `SY` of the regression loop. -/
def sumY (l : List (ℚ × ℚ)) : ℚ := l.foldl (fun a p => a + p.2) 0

/-- Accumulated `SXY` of the regression loop. -/
def sumXY (l : List (ℚ × ℚ)) : ℚ := l.foldl (fun a p => a + p.1 * p.2) 0

/-- Accumulated `SXX` of the regression loop. -/
def sumXX (l : List (ℚ × ℚ)) : ℚ := l.foldl (fun a p => a + p.1 * p.1) 0

/-- Accumulated `SYY` of the regression loop (computed by the source,
never used in its results). -/
def sumYY (l : List (ℚ × ℚ)) : ℚ := l.foldl (fun a p => a + p.2 * p.2) 0

/-- The closed-form least-squares fit `[slope, intercept]` of the inner
`regression` function, on the lockstep x/y arrays represented as pairs.
Rational division by zero yields 0 where the source would produce a
non-finite number; all theorems below stay on inputs whose denominators are
nonzero, as the source's own documentation assumes. -/
def regression (l : List (ℚ × ℚ)) : ℚ × ℚ :=
  let N : ℚ := (l.length : ℚ)
  let slope := (N * sumXY l - sumX l * sumY l) / (N * sumXX l - sumX l * sumX l)
  let intercept := (sumY l - slope * sumX l) / N
  (slope, intercept)

/-- The return object of `getTrendlineData`. -/
structure TrendOut where
  data : List (ℚ × ℚ)
  slope : ℚ
  intercept : ℚ
  deriving DecidableEq, Repr

/-- The full `getTrendlineData`: filter, fit, and one predicted point per
retained sample in order. -/
def getTrendlineData (samples : List Sample) : TrendOut :=
  let pts := retained samples 0
  let mb := regression pts
  { data := pts.map fun p => (p.1, mb.1 * p.1 + mb.2)
    slope := mb.1, intercept := mb.2 }

/-- A default store for concrete runs. -/
def defStore : Store := fun _ => { x := some 9, y := some 9, extra := 5 }

@[simp] lemma jsub_some (a b : ℚ) : jsub (some a) (some b) = some (a - b) := rfl

@[simp] lemma jmul_some (a b : ℚ) : jmul (some a) (some b) = some (a * b) := rfl

@[simp] lemma jdiv_some (a b : ℚ) :
    jdiv (some a) (some b) = if b = 0 then none else some (a / b) := rfl

@[simp] lemma jlt_some (a b : ℚ) : jlt (some a) (some b) = decide (a < b) := rfl

@[simp] lemma jgt_some (a b : ℚ) : jgt (some a) (some b) = decide (b < a) := rfl

@[simp] lemma jle_some (a b : ℚ) : jle (some a) (some b) = decide (a ≤ b) := rfl

@[simp] lemma jge_some (a b : ℚ) : jge (some a) (some b) = decide (b ≤ a) := rfl

@[simp] lemma jeq_some (a b : ℚ) : jeq (some a) (some b) = decide (a = b) := rfl

@[simp] lemma jlt_none_left (b : JsNum) : jlt none b = false := by cases b <;> rfl

@[simp] lemma jlt_none_right (a : JsNum) : jlt a none = false := by cases a <;> rfl

@[simp] lemma jgt_none_left (b : JsNum) : jgt none b = false := by cases b <;> rfl

@[simp] lemma jgt_none_right (a : JsNum) : jgt a none = false := by cases a <;> rfl

@[simp] lemma jle_none_left (b : JsNum) : jle none b = false := by cases b <;> rfl

@[simp] lemma jle_none_right (a : JsNum) : jle a none = false := by cases a <;> rfl

@[simp] lemma jge_none_left (b : JsNum) : jge none b = false := by cases b <;> rfl

@[simp] lemma jge_none_right (a : JsNum) : jge a none = false := by cases a <;> rfl

@[simp] lemma jeq_none_left (b : JsNum) : jeq none b = false := by cases b <;> rfl

@[simp] lemma jeq_none_right (a : JsNum) : jeq a none = false := by cases a <;> rfl

@[simp] lemma truthy_some (q : ℚ) : truthy (some q) = decide (q ≠ 0) := rfl

@[simp] lemma truthy_none : truthy none = false := rfl

/-- A line of ≥ 2 points presented by its first point, its middle
elements, and its last point — the shape every validated line has. -/
def mkLine (x1 y1 : ℚ) (mid : List PtVal) (x2 y2 : ℚ) : List PtVal :=
  .pt (some x1) (some y1) :: (mid ++ [.pt (some x2) (some y2)])

lemma lastPt_cons_concat (a : PtVal) (l : List PtVal) (b : PtVal) :
    lastPt (a :: (l ++ [b])) = b := by
  induction l generalizing a with
  | nil => rfl
  | cons c t ih => simpa [lastPt] using ih c

@[simp] lemma firstPt_mkLine (x1 y1 : ℚ) (mid : List PtVal) (x2 y2 : ℚ) :
    firstPt (mkLine x1 y1 mid x2 y2) = .pt (some x1) (some y1) := rfl

@[simp] lemma lastPt_mkLine (x1 y1 : ℚ) (mid : List PtVal) (x2 y2 : ℚ) :
    lastPt (mkLine x1 y1 mid x2 y2) = .pt (some x2) (some y2) :=
  lastPt_cons_concat _ _ _

@[simp] lemma length_mkLine (x1 y1 : ℚ) (mid : List PtVal) (x2 y2 : ℚ) :
    (mkLine x1 y1 mid x2 y2).length = mid.length + 2 := by
  simp [mkLine]

@[simp] lemma isArrayElem_pt (x y : JsNum) : isArrayElem (.pt x y) = true := rfl

lemma firstTwoOk_mkLine (x1 y1 : ℚ) (mid : List PtVal) (x2 y2 : ℚ)
    (h : ∀ e ∈ mid, isArrayElem e = true) :
    firstTwoOk (mkLine x1 y1 mid x2 y2) = true := by
  cases mid with
  | nil => rfl
  | cons e t => simp [firstTwoOk, mkLine, h e (List.mem_cons_self e t)]

/-- The denominator of the intersection formula on the four endpoint
coordinates. -/
def denomQ (x1 y1 x2 y2 x3 y3 x4 y4 : ℚ) : ℚ :=
  (x1 - x2) * (y3 - y4) - (y1 - y2) * (x3 - x4)

/-- The x numerator of the intersection formula. -/
def xNumQ (x1 y1 x2 y2 x3 y3 x4 y4 : ℚ) : ℚ :=
  (x1 * y2 - y1 * x2) * (x3 - x4) - (x1 - x2) * (x3 * y4 - y3 * x4)

/-- The y numerator of the intersection formula. -/
def yNumQ (x1 y1 x2 y2 x3 y3 x4 y4 : ℚ) : ℚ :=
  (x1 * y2 - y1 * x2) * (y3 - y4) - (y1 - y2) * (x3 * y4 - y3 * x4)

/-- The intersection x coordinate as an exact rational. -/
def icptXQ (x1 y1 x2 y2 x3 y3 x4 y4 : ℚ) : ℚ :=
  xNumQ x1 y1 x2 y2 x3 y3 x4 y4 / denomQ x1 y1 x2 y2 x3 y3 x4 y4

/-- The intersection y coordinate as an exact rational. -/
def icptYQ (x1 y1 x2 y2 x3 y3 x4 y4 : ℚ) : ℚ :=
  yNumQ x1 y1 x2 y2 x3 y3 x4 y4 / denomQ x1 y1 x2 y2 x3 y3 x4 y4

/-- On validated array arguments with well-formed options the call runs the
geometric body on the merged options. -/
lemma run_mkLine (i1 i2 : Nat) (x1 y1 x2 y2 x3 y3 x4 y4 : ℚ)
    (mid1 mid2 : List PtVal) (ua : UserArg) (s0 : Store)
    (h1 : ∀ e ∈ mid1, isArrayElem e = true) (h2 : ∀ e ∈ mid2, isArrayElem e = true)
    (hua : ua ≠ .notObj) :
    getLineIntersectionData (.arr i1 (mkLine x1 y1 mid1 x2 y2))
      (.arr i2 (mkLine x3 y3 mid2 x4 y4)) ua s0 =
    intersectBody i1 i2 (mkLine x1 y1 mid1 x2 y2) (mkLine x3 y3 mid2 x4 y4)
      (mergeOpts ua) s0 := by
  have hl1 := firstTwoOk_mkLine x1 y1 mid1 x2 y2 h1
  have hl2 := firstTwoOk_mkLine x3 y3 mid2 x4 y4 h2
  have hlen : ¬((mkLine x1 y1 mid1 x2 y2).length ≤ 1 ∨
      (mkLine x3 y3 mid2 x4 y4).length ≤ 1) := by
    simp
  cases ua with
  | notObj => exact absurd rfl hua
  | absent => simp [getLineIntersectionData, hl1, hl2, hlen]
  | obj o => simp [getLineIntersectionData, hl1, hl2, hlen]

/-- On structured lines with zero denominator the body takes the parallel
exit. -/
lemma body_parallel (i1 i2 : Nat) (x1 y1 x2 y2 x3 y3 x4 y4 : ℚ)
    (mid1 mid2 : List PtVal) (o : MOpts) (s0 : Store)
    (hd : denomQ x1 y1 x2 y2 x3 y3 x4 y4 = 0) :
    intersectBody i1 i2 (mkLine x1 y1 mid1 x2 y2) (mkLine x3 y3 mid2 x4 y4) o s0 =
    (match o.onParallel with
     | .fn =>
       { result := none, store := s0, errors := [], parallelCalled := true
         alreadyCalled := false, validateCalled := false }
     | .notFn =>
       { result := none, store := s0, errors := [msgPar], parallelCalled := false
         alreadyCalled := false, validateCalled := false }) := by
  have hd' : (x1 - x2) * (y3 - y4) - (y1 - y2) * (x3 - x4) = 0 := by
    simpa [denomQ] using hd
  simp [intersectBody, denomOf, idx0, idx1, hd']

/-- On structured lines with nonzero denominator the body computes the
rational intersection point and hands the raw-order containment test to the
remaining stages. -/
lemma body_nonpar (i1 i2 : Nat) (x1 y1 x2 y2 x3 y3 x4 y4 : ℚ)
    (mid1 mid2 : List PtVal) (o : MOpts) (s0 : Store)
    (hd : denomQ x1 y1 x2 y2 x3 y3 x4 y4 ≠ 0) :
    intersectBody i1 i2 (mkLine x1 y1 mid1 x2 y2) (mkLine x3 y3 mid2 x4 y4) o s0 =
    intersectCore i1 i2 (mkLine x1 y1 mid1 x2 y2) (mkLine x3 y3 mid2 x4 y4) o s0
      (some (icptXQ x1 y1 x2 y2 x3 y3 x4 y4)) (some (icptYQ x1 y1 x2 y2 x3 y3 x4 y4))
      (decide (x1 ≤ icptXQ x1 y1 x2 y2 x3 y3 x4 y4) &&
       decide (icptXQ x1 y1 x2 y2 x3 y3 x4 y4 ≤ x2) &&
       decide (x3 ≤ icptXQ x1 y1 x2 y2 x3 y3 x4 y4) &&
       decide (icptXQ x1 y1 x2 y2 x3 y3 x4 y4 ≤ x4)) := by
  have hd' : ¬((x1 - x2) * (y3 - y4) - (y1 - y2) * (x3 - x4) = 0) := by
    simpa [denomQ] using hd
  simp [intersectBody, denomOf, xNumOf, yNumOf, icptXOf, icptYOf, hitOf, idx0, idx1, hd',
    icptXQ, icptYQ, xNumQ, yNumQ, denomQ]

/-- C1: for line1 = [[0,1],[2,1]] and line2 = [[1,0],[1,2]] with no options
supplied, getLineIntersectionData returns icptX = 1, icptY = 1, the
returned line1 equal to [[0,1],[1,1],[2,1]] and the returned line2 equal to
[[1,0],[1,1],[1,2]]. -/
theorem C1_concrete_intersection :
    (getLineIntersectionData
      (.arr 0 [.pt (some 0) (some 1), .pt (some 2) (some 1)])
      (.arr 1 [.pt (some 1) (some 0), .pt (some 1) (some 2)])
      .absent defStore).result =
    some { icptX := some 1, icptY := some 1
           line1_data := (2, [.pt (some 0) (some 1), .pt (some 1) (some 1), .pt (some 2) (some 1)])
           line2_data := (3, [.pt (some 1) (some 0), .pt (some 1) (some 1), .pt (some 1) (some 2)]) } := by
  norm_num [getLineIntersectionData, intersectBody, intersectCore, denomOf, xNumOf, yNumOf,
    icptXOf, icptYOf, hitOf, updStore, mergeOpts, firstTwoOk, isArrayElem, insertPoint,
    replaceEq, insertCmp, sortJs, lineCmp, sortX, sortY, idx0, idx1, firstPt, lastPt,
    hookIsFn, hookRetFalse, defaultAlready, defaultValidate]

/-- C3: whenever the endpoint coordinates of two valid lines satisfy
(x1-x2)(y3-y4) - (y1-y2)(x3-x4) = 0, the call invokes the onParallel hook
exactly when that (possibly defaulted) option is a function, returns the
no-result signal, and performs no insertion or mutation (the store is
untouched). -/
theorem C3_parallel_returns_none (i1 i2 : Nat) (x1 y1 x2 y2 x3 y3 x4 y4 : ℚ)
    (mid1 mid2 : List PtVal) (ua : UserArg) (s0 : Store)
    (h1 : ∀ e ∈ mid1, isArrayElem e = true) (h2 : ∀ e ∈ mid2, isArrayElem e = true)
    (hua : ua ≠ .notObj)
    (hd : denomQ x1 y1 x2 y2 x3 y3 x4 y4 = 0) :
    (getLineIntersectionData (.arr i1 (mkLine x1 y1 mid1 x2 y2))
      (.arr i2 (mkLine x3 y3 mid2 x4 y4)) ua s0).result = none ∧
    (getLineIntersectionData (.arr i1 (mkLine x1 y1 mid1 x2 y2))
      (.arr i2 (mkLine x3 y3 mid2 x4 y4)) ua s0).store = s0 ∧
    ((getLineIntersectionData (.arr i1 (mkLine x1 y1 mid1 x2 y2))
      (.arr i2 (mkLine x3 y3 mid2 x4 y4)) ua s0).parallelCalled = true ↔
      (mergeOpts ua).onParallel = .fn) := by
  rw [run_mkLine i1 i2 x1 y1 x2 y2 x3 y3 x4 y4 mid1 mid2 ua s0 h1 h2 hua,
      body_parallel i1 i2 x1 y1 x2 y2 x3 y3 x4 y4 mid1 mid2 (mergeOpts ua) s0 hd]
  cases h : (mergeOpts ua).onParallel <;> simp [h]

/-- Witness for C3 on the spec's parallel example line1 = [[0,1],[2,1]],
line2 = [[0,5],[2,5]] with default options. -/
theorem C3_parallel_returns_none_witness :
    (getLineIntersectionData (.arr 0 (mkLine 0 1 [] 2 1))
      (.arr 1 (mkLine 0 5 [] 2 5)) .absent defStore).result = none ∧
    (getLineIntersectionData (.arr 0 (mkLine 0 1 [] 2 1))
      (.arr 1 (mkLine 0 5 [] 2 5)) .absent defStore).parallelCalled = true := by
  have h := C3_parallel_returns_none 0 1 0 1 2 1 0 5 2 5 [] [] .absent defStore
    (by simp) (by simp) (fun h => UserArg.noConfusion h) (by norm_num [denomQ])
  exact ⟨h.1, h.2.2.mpr rfl⟩

/-- C2 counterexample: for line1 = [[2,1],[0,1]] (x descending) and
line2 = [[1,0],[1,2]], the computed icptX = 1 lies inside both
[min(x1,x2), max(x1,x2)] = [0,2] and [min(x3,x4), max(x3,x4)] = [1,1] and
the call succeeds, yet the already-intersecting hook is never invoked: the
code tests `icptX >= x1 && icptX <= x2` on the raw first/last order, not on
min/max, so the test is not independent of the line's direction. -/
theorem C2_minmax_counterexample :
    (getLineIntersectionData (.arr 0 [.pt (some 2) (some 1), .pt (some 0) (some 1)])
       (.arr 1 [.pt (some 1) (some 0), .pt (some 1) (some 2)]) .absent
       defStore).alreadyCalled = false ∧
    (getLineIntersectionData (.arr 0 [.pt (some 2) (some 1), .pt (some 0) (some 1)])
       (.arr 1 [.pt (some 1) (some 0), .pt (some 1) (some 2)]) .absent
       defStore).result.isSome = true ∧
    Option.map IcptRes.icptX
      (getLineIntersectionData (.arr 0 [.pt (some 2) (some 1), .pt (some 0) (some 1)])
        (.arr 1 [.pt (some 1) (some 0), .pt (some 1) (some 2)]) .absent
        defStore).result = some (some 1) ∧
    (min (2:ℚ) 0 ≤ 1 ∧ (1:ℚ) ≤ max 2 0 ∧ min (1:ℚ) 1 ≤ 1 ∧ (1:ℚ) ≤ max 1 1) := by
  refine ⟨?_, ?_, ?_, by norm_num⟩ <;>
    norm_num [getLineIntersectionData, intersectBody, intersectCore, denomOf, xNumOf, yNumOf,
      icptXOf, icptYOf, hitOf, updStore, mergeOpts, firstTwoOk, insertPoint, replaceEq,
      insertCmp, sortJs, lineCmp, sortX, sortY, idx0, idx1, firstPt, lastPt,
      hookIsFn, hookRetFalse, defaultAlready, defaultValidate]

/-- C2 amended: for valid non-parallel lines under default options, the
already-intersecting hook is invoked exactly when icptX lies within
[x1, x2] and within [x3, x4] taken in the raw first-to-last order of each
line (so the test does depend on whether each line's x run ascending or
descending), not within the min/max envelopes. -/
theorem C2_already_hook_raw_interval (i1 i2 : Nat) (x1 y1 x2 y2 x3 y3 x4 y4 : ℚ)
    (mid1 mid2 : List PtVal) (s0 : Store)
    (h1 : ∀ e ∈ mid1, isArrayElem e = true) (h2 : ∀ e ∈ mid2, isArrayElem e = true)
    (hd : denomQ x1 y1 x2 y2 x3 y3 x4 y4 ≠ 0) :
    ((getLineIntersectionData (.arr i1 (mkLine x1 y1 mid1 x2 y2))
      (.arr i2 (mkLine x3 y3 mid2 x4 y4)) .absent s0).alreadyCalled = true ↔
      (x1 ≤ icptXQ x1 y1 x2 y2 x3 y3 x4 y4 ∧ icptXQ x1 y1 x2 y2 x3 y3 x4 y4 ≤ x2 ∧
       x3 ≤ icptXQ x1 y1 x2 y2 x3 y3 x4 y4 ∧ icptXQ x1 y1 x2 y2 x3 y3 x4 y4 ≤ x4)) := by
  rw [run_mkLine i1 i2 x1 y1 x2 y2 x3 y3 x4 y4 mid1 mid2 .absent s0 h1 h2
        (fun h => UserArg.noConfusion h),
      body_nonpar i1 i2 x1 y1 x2 y2 x3 y3 x4 y4 mid1 mid2 (mergeOpts .absent) s0 hd]
  simp [intersectCore, mergeOpts, defaultAlready, defaultValidate, hookRetFalse, hookIsFn,
    and_assoc]

/-- Witness for C2 on line1 = [[0,1],[2,1]], line2 = [[1,0],[1,2]]: the
containment condition holds in raw order and the hook is invoked. -/
theorem C2_already_hook_raw_interval_witness :
    (getLineIntersectionData (.arr 0 (mkLine 0 1 [] 2 1))
      (.arr 1 (mkLine 1 0 [] 1 2)) .absent defStore).alreadyCalled = true := by
  exact (C2_already_hook_raw_interval 0 1 0 1 2 1 1 0 1 2 [] [] defStore
    (by simp) (by simp) (by norm_num [denomQ])).mpr
    (by norm_num [icptXQ, xNumQ, denomQ])

/-- C4 counterexample: supplying validateIntersection as a non-function
does not make the call fail with the no-result signal: the call still
computes and inserts the intersection point and returns a result, merely
logging a diagnostic. -/
theorem C4_noninvocable_counterexample :
    (getLineIntersectionData (.arr 0 [.pt (some 0) (some 1), .pt (some 2) (some 1)])
       (.arr 1 [.pt (some 1) (some 0), .pt (some 1) (some 2)])
       (.obj { validateIntersection := some .notFn }) defStore).result.isSome = true ∧
    (getLineIntersectionData (.arr 0 [.pt (some 0) (some 1), .pt (some 2) (some 1)])
       (.arr 1 [.pt (some 1) (some 0), .pt (some 1) (some 2)])
       (.obj { validateIntersection := some .notFn }) defStore).errors = [msgValidate] := by
  refine ⟨?_, ?_⟩ <;>
    norm_num [getLineIntersectionData, intersectBody, intersectCore, denomOf, xNumOf, yNumOf,
      icptXOf, icptYOf, hitOf, updStore, mergeOpts, firstTwoOk, insertPoint, replaceEq,
      insertCmp, sortJs, lineCmp, sortX, sortY, idx0, idx1, firstPt, lastPt,
      hookIsFn, hookRetFalse, defaultAlready, defaultValidate]

/-- C4 amended: supplying non-invocable hook options never yields an
invalid-options failure: on valid non-parallel lines with all three hooks
supplied as non-functions the call logs a diagnostic at the point the hook
would be used and proceeds to compute and insert the intersection point,
returning a full result. -/
theorem C4_noninvocable_hooks_continue (i1 i2 : Nat) (x1 y1 x2 y2 x3 y3 x4 y4 : ℚ)
    (mid1 mid2 : List PtVal) (s0 : Store)
    (h1 : ∀ e ∈ mid1, isArrayElem e = true) (h2 : ∀ e ∈ mid2, isArrayElem e = true)
    (hd : denomQ x1 y1 x2 y2 x3 y3 x4 y4 ≠ 0) :
    (getLineIntersectionData (.arr i1 (mkLine x1 y1 mid1 x2 y2))
      (.arr i2 (mkLine x3 y3 mid2 x4 y4))
      (.obj { onParallel := some .notFn, onLinesAlreadyIntersect := some .notFn
              validateIntersection := some .notFn }) s0).result.isSome = true ∧
    msgValidate ∈ (getLineIntersectionData (.arr i1 (mkLine x1 y1 mid1 x2 y2))
      (.arr i2 (mkLine x3 y3 mid2 x4 y4))
      (.obj { onParallel := some .notFn, onLinesAlreadyIntersect := some .notFn
              validateIntersection := some .notFn }) s0).errors := by
  rw [run_mkLine i1 i2 x1 y1 x2 y2 x3 y3 x4 y4 mid1 mid2 _ s0 h1 h2
        (fun h => UserArg.noConfusion h),
      body_nonpar i1 i2 x1 y1 x2 y2 x3 y3 x4 y4 mid1 mid2 _ s0 hd]
  simp [intersectCore, mergeOpts, hookRetFalse, hookIsFn]

/-- Witness for C4 amended on line1 = [[0,1],[2,1]], line2 = [[1,0],[1,2]].
-/
theorem C4_noninvocable_hooks_continue_witness :
    (getLineIntersectionData (.arr 0 (mkLine 0 1 [] 2 1))
      (.arr 1 (mkLine 1 0 [] 1 2))
      (.obj { onParallel := some .notFn, onLinesAlreadyIntersect := some .notFn
              validateIntersection := some .notFn }) defStore).result.isSome = true ∧
    msgValidate ∈ (getLineIntersectionData (.arr 0 (mkLine 0 1 [] 2 1))
      (.arr 1 (mkLine 1 0 [] 1 2))
      (.obj { onParallel := some .notFn, onLinesAlreadyIntersect := some .notFn
              validateIntersection := some .notFn }) defStore).errors :=
  C4_noninvocable_hooks_continue 0 1 0 1 2 1 1 0 1 2 [] [] defStore
    (by simp) (by simp) (by norm_num [denomQ])

lemma mem_insertCmp (cmp : PtVal → PtVal → Int) (x a : PtVal) (l : List PtVal) :
    a ∈ insertCmp cmp x l ↔ a = x ∨ a ∈ l := by
  induction l with
  | nil => simp [insertCmp]
  | cons y ys ih =>
    by_cases h : cmp x y < 0
    · simp only [insertCmp, if_pos h, List.mem_cons]
    · simp only [insertCmp, if_neg h, List.mem_cons, ih]
      tauto

lemma mem_sortJs (cmp : PtVal → PtVal → Int) (a : PtVal) (l : List PtVal) :
    a ∈ sortJs cmp l ↔ a ∈ l := by
  have key : ∀ (t acc : List PtVal),
      a ∈ t.foldl (fun acc e => insertCmp cmp e acc) acc ↔ a ∈ acc ∨ a ∈ t := by
    intro t
    induction t with
    | nil => simp
    | cons e t ih =>
      intro acc
      rw [List.foldl_cons, ih, mem_insertCmp]
      simp only [List.mem_cons]
      tauto
  simpa [sortJs] using key l []

lemma replaceEq_some_mem (icx icy : JsNum) (p : PtVal) (l l' : List PtVal)
    (h : replaceEq icx icy p l = some l') : p ∈ l' := by
  induction l generalizing l' with
  | nil => simp [replaceEq] at h
  | cons e rest ih =>
    rw [replaceEq] at h
    by_cases hc : (jeq (idx0 e) icx && jeq (idx1 e) icy) = true
    · rw [if_pos hc] at h
      obtain rfl : p :: rest = l' := by simpa using h
      simp
    · rw [if_neg hc] at h
      rcases Option.map_eq_some'.mp h with ⟨l'', h1, rfl⟩
      exact List.mem_cons_of_mem _ (ih _ h1)

lemma mem_insertPoint_self (s : Store) (icx icy : JsNum) (p : PtVal)
    (line : List PtVal) : p ∈ insertPoint s icx icy p line := by
  cases h : replaceEq icx icy p line with
  | some done => simpa [insertPoint, h] using replaceEq_some_mem icx icy p line done h
  | none => simp [insertPoint, h, mem_sortJs]

lemma intersectCore_objRef (i1 i2 : Nat) (l1 l2 : List PtVal) (o : MOpts)
    (s0 : Store) (icx icy : JsNum) (hit : Bool) (r : Nat)
    (ho : o.icptPoint = .objRef r)
    (hna : (hit && hookRetFalse o.already icx icy) = false)
    (hnv : hookRetFalse o.validate icx icy = false) :
    intersectCore i1 i2 l1 l2 o s0 icx icy hit =
    { result := some
        { icptX := icx, icptY := icy
          line1_data := (max i1 i2 + 1, insertPoint (updStore s0 r icx icy) icx icy (.ref r) l1)
          line2_data := (max i1 i2 + 2, insertPoint (updStore s0 r icx icy) icx icy (.ref r) l2) }
      store := updStore s0 r icx icy
      errors := (if hit && !hookIsFn o.already then [msgAlready] else []) ++
        (if !hookIsFn o.validate then [msgValidate] else [])
      parallelCalled := false
      alreadyCalled := hit && hookIsFn o.already
      validateCalled := hookIsFn o.validate } := by
  simp [intersectCore, ho, hna, hnv]

lemma body_store_mem (i1 i2 : Nat) (l1 l2 : List PtVal) (o : MOpts) (s0 : Store)
    (r : Nat) (res : IcptRes)
    (ho : o.icptPoint = .objRef r)
    (hres : (intersectBody i1 i2 l1 l2 o s0).result = some res) :
    (intersectBody i1 i2 l1 l2 o s0).store r =
      { x := res.icptX, y := res.icptY, extra := (s0 r).extra } ∧
    (∀ j, j ≠ r → (intersectBody i1 i2 l1 l2 o s0).store j = s0 j) ∧
    PtVal.ref r ∈ res.line1_data.2 ∧ PtVal.ref r ∈ res.line2_data.2 := by
  cases hj : jeq (denomOf l1 l2) (some 0) with
  | true =>
    cases hp : o.onParallel <;> simp [intersectBody, hj, hp] at hres
  | false =>
    have hbody : intersectBody i1 i2 l1 l2 o s0 =
        intersectCore i1 i2 l1 l2 o s0 (icptXOf l1 l2) (icptYOf l1 l2) (hitOf l1 l2) := by
      simp [intersectBody, hj]
    rw [hbody] at hres ⊢
    cases hna : (hitOf l1 l2 && hookRetFalse o.already (icptXOf l1 l2) (icptYOf l1 l2)) with
    | true => simp [intersectCore, hna] at hres
    | false =>
      cases hnv : hookRetFalse o.validate (icptXOf l1 l2) (icptYOf l1 l2) with
      | true => simp [intersectCore, hna, hnv] at hres
      | false =>
        rw [intersectCore_objRef i1 i2 l1 l2 o s0 _ _ _ r ho hna hnv] at hres ⊢
        simp only [Option.some.injEq] at hres
        subst hres
        refine ⟨by simp [updStore], fun j hj' => by simp [updStore, hj'], ?_, ?_⟩
        · exact mem_insertPoint_self _ _ _ _ _
        · exact mem_insertPoint_self _ _ _ _ _

/-- C10: when the icptPoint option is supplied as a labeled object and the
call succeeds, the caller's own option object is mutated in place — its x
and y fields are set to the intersection coordinates while its extra fields
and every other object are untouched — and that very same object (by
reference, not a copy) is an element of both returned lines, so the two
returned lines share one point value. -/
theorem C10_icpt_object_shared_mutation (a1 a2 : LineArg) (ua : UserArg)
    (s0 : Store) (r : Nat) (res : IcptRes)
    (hicpt : (mergeOpts ua).icptPoint = .objRef r)
    (hres : (getLineIntersectionData a1 a2 ua s0).result = some res) :
    (getLineIntersectionData a1 a2 ua s0).store r =
      { x := res.icptX, y := res.icptY, extra := (s0 r).extra } ∧
    (∀ j, j ≠ r → (getLineIntersectionData a1 a2 ua s0).store j = s0 j) ∧
    PtVal.ref r ∈ res.line1_data.2 ∧ PtVal.ref r ∈ res.line2_data.2 := by
  cases a1 with
  | missing => cases a2 <;> simp [getLineIntersectionData, errOut] at hres
  | notArr => cases a2 <;> simp [getLineIntersectionData, errOut] at hres
  | arr i1 l1 =>
    cases a2 with
    | missing => simp [getLineIntersectionData, errOut] at hres
    | notArr => simp [getLineIntersectionData, errOut] at hres
    | arr i2 l2 =>
      simp only [getLineIntersectionData] at hres ⊢
      by_cases hfk : (firstTwoOk l1 && firstTwoOk l2) = true
      · rw [if_pos hfk] at hres ⊢
        by_cases hlen : (l1.length ≤ 1 ∨ l2.length ≤ 1)
        · rw [if_pos hlen] at hres
          simp [errOut] at hres
        · rw [if_neg hlen] at hres ⊢
          cases ua with
          | notObj => simp [errOut] at hres
          | absent => simp [mergeOpts] at hicpt
          | obj o => exact body_store_mem i1 i2 l1 l2 _ s0 r res hicpt hres
      · rw [if_neg hfk] at hres
        simp [errOut] at hres

/-- Witness for C10: a labeled icptPoint object with id 7 on the example
lines gets x = y = 1 written in place, keeps its extra field, and appears
in both returned lines. -/
theorem C10_icpt_object_shared_mutation_witness :
    (getLineIntersectionData (.arr 0 [.pt (some 0) (some 1), .pt (some 2) (some 1)])
      (.arr 1 [.pt (some 1) (some 0), .pt (some 1) (some 2)])
      (.obj { icptPoint := some (.objRef 7) }) defStore).store 7 =
      { x := some 1, y := some 1, extra := 5 } ∧
    PtVal.ref 7 ∈ [PtVal.pt (some 0) (some 1), PtVal.ref 7, PtVal.pt (some 2) (some 1)] ∧
    PtVal.ref 7 ∈ [PtVal.pt (some 1) (some 0), PtVal.ref 7, PtVal.pt (some 1) (some 2)] := by
  have hres : (getLineIntersectionData
      (.arr 0 [.pt (some 0) (some 1), .pt (some 2) (some 1)])
      (.arr 1 [.pt (some 1) (some 0), .pt (some 1) (some 2)])
      (.obj { icptPoint := some (.objRef 7) }) defStore).result =
      some { icptX := some 1, icptY := some 1
             line1_data := (2, [.pt (some 0) (some 1), .ref 7, .pt (some 2) (some 1)])
             line2_data := (3, [.pt (some 1) (some 0), .ref 7, .pt (some 1) (some 2)]) } := by
    norm_num [getLineIntersectionData, intersectBody, intersectCore, denomOf, xNumOf, yNumOf,
      icptXOf, icptYOf, hitOf, updStore, mergeOpts, firstTwoOk, insertPoint, replaceEq,
      insertCmp, sortJs, lineCmp, sortX, sortY, idx0, idx1, firstPt, lastPt,
      hookIsFn, hookRetFalse, defaultAlready, defaultValidate]
  have h := C10_icpt_object_shared_mutation _ _
    (.obj { icptPoint := some (.objRef 7) }) _ 7 _ rfl hres
  exact ⟨h.1, h.2.2.1, h.2.2.2⟩

/-- The deep content of one line element: arrays and bare numbers by value,
object references by their current store state. -/
inductive RElem where
  | rpt (x y : JsNum)
  | robj (o : ObjPt)
  | rnum (q : ℚ)
  deriving DecidableEq, Repr

/-- Deep-render one element against a store. -/
def renderElem (s : Store) : PtVal → RElem
  | .pt x y => .rpt x y
  | .ref r => .robj (s r)
  | .num q => .rnum q

/-- The deep content of a whole line against a store: the caller-observable
snapshot of the argument. -/
def renderLine (s : Store) (l : List PtVal) : List RElem := l.map (renderElem s)

lemma core_store_shape (i1 i2 : Nat) (l1 l2 : List PtVal) (o : MOpts) (s0 : Store)
    (icx icy : JsNum) (hit : Bool) :
    (intersectCore i1 i2 l1 l2 o s0 icx icy hit).store = s0 ∨
    ∃ r, o.icptPoint = .objRef r ∧
      (intersectCore i1 i2 l1 l2 o s0 icx icy hit).store = updStore s0 r icx icy := by
  cases hna : (hit && hookRetFalse o.already icx icy) with
  | true => left; simp [intersectCore, hna]
  | false =>
    cases hnv : hookRetFalse o.validate icx icy with
    | true => left; simp [intersectCore, hna, hnv]
    | false =>
      cases hi : o.icptPoint with
      | arrv => left; simp [intersectCore, hna, hnv, hi]
      | objRef r => exact Or.inr ⟨r, rfl, by simp [intersectCore, hna, hnv, hi]⟩
      | badIcpt => left; simp [intersectCore, hna, hnv, hi]

lemma body_store_shape (i1 i2 : Nat) (l1 l2 : List PtVal) (o : MOpts) (s0 : Store) :
    (intersectBody i1 i2 l1 l2 o s0).store = s0 ∨
    ∃ r icx icy, o.icptPoint = .objRef r ∧
      (intersectBody i1 i2 l1 l2 o s0).store = updStore s0 r icx icy := by
  cases hj : jeq (denomOf l1 l2) (some 0) with
  | true => left; cases hp : o.onParallel <;> simp [intersectBody, hj, hp]
  | false =>
    have hb : intersectBody i1 i2 l1 l2 o s0 =
        intersectCore i1 i2 l1 l2 o s0 (icptXOf l1 l2) (icptYOf l1 l2) (hitOf l1 l2) := by
      simp [intersectBody, hj]
    rw [hb]
    rcases core_store_shape i1 i2 l1 l2 o s0 (icptXOf l1 l2) (icptYOf l1 l2)
      (hitOf l1 l2) with h | ⟨r, h1, h2⟩
    · exact Or.inl h
    · exact Or.inr ⟨r, _, _, h1, h2⟩

lemma run_store_shape (a1 a2 : LineArg) (ua : UserArg) (s0 : Store) :
    (getLineIntersectionData a1 a2 ua s0).store = s0 ∨
    ∃ r icx icy, (mergeOpts ua).icptPoint = .objRef r ∧
      (getLineIntersectionData a1 a2 ua s0).store = updStore s0 r icx icy := by
  cases a1 with
  | missing => left; cases a2 <;> simp [getLineIntersectionData, errOut]
  | notArr => left; cases a2 <;> simp [getLineIntersectionData, errOut]
  | arr i1 l1 =>
    cases a2 with
    | missing => left; simp [getLineIntersectionData, errOut]
    | notArr => left; simp [getLineIntersectionData, errOut]
    | arr i2 l2 =>
      simp only [getLineIntersectionData]
      by_cases hfk : (firstTwoOk l1 && firstTwoOk l2) = true
      · rw [if_pos hfk]
        by_cases hlen : (l1.length ≤ 1 ∨ l2.length ≤ 1)
        · rw [if_pos hlen]; left; simp [errOut]
        · rw [if_neg hlen]
          cases ua with
          | notObj => left; simp [errOut]
          | absent => exact body_store_shape i1 i2 l1 l2 (mergeOpts .absent) s0
          | obj o => exact body_store_shape i1 i2 l1 l2 (mergeOpts (.obj o)) s0
      · rw [if_neg hfk]; left; simp [errOut]

lemma renderLine_upd (s0 : Store) (r : Nat) (icx icy : JsNum) (l : List PtVal)
    (h : PtVal.ref r ∉ l) : renderLine (updStore s0 r icx icy) l = renderLine s0 l := by
  induction l with
  | nil => rfl
  | cons e t ih =>
    have he : PtVal.ref r ≠ e ∧ PtVal.ref r ∉ t := by
      simpa [List.mem_cons] using h
    have hstep : renderElem (updStore s0 r icx icy) e = renderElem s0 e := by
      cases e with
      | pt x y => rfl
      | num q => rfl
      | ref j =>
        have hj : j ≠ r := fun hjr => he.1 (by rw [hjr])
        simp [renderElem, updStore, hj]
    simp [renderLine, List.map_cons, hstep] at *
    exact ih he.2

lemma core_result_ids (i1 i2 : Nat) (l1 l2 : List PtVal) (o : MOpts) (s0 : Store)
    (icx icy : JsNum) (hit : Bool) (res : IcptRes)
    (h : (intersectCore i1 i2 l1 l2 o s0 icx icy hit).result = some res) :
    res.line1_data.1 = max i1 i2 + 1 ∧ res.line2_data.1 = max i1 i2 + 2 := by
  cases hna : (hit && hookRetFalse o.already icx icy) with
  | true => simp [intersectCore, hna] at h
  | false =>
    cases hnv : hookRetFalse o.validate icx icy with
    | true => simp [intersectCore, hna, hnv] at h
    | false =>
      cases hi : o.icptPoint with
      | badIcpt => simp [intersectCore, hna, hnv, hi] at h
      | arrv =>
        simp only [intersectCore, hna, hnv, hi, Bool.false_eq_true, if_false,
          Option.some.injEq] at h
        subst h
        exact ⟨rfl, rfl⟩
      | objRef r =>
        simp only [intersectCore, hna, hnv, hi, Bool.false_eq_true, if_false,
          Option.some.injEq] at h
        subst h
        exact ⟨rfl, rfl⟩

lemma run_result_ids (i1 i2 : Nat) (l1 l2 : List PtVal) (ua : UserArg) (s0 : Store)
    (res : IcptRes)
    (hres : (getLineIntersectionData (.arr i1 l1) (.arr i2 l2) ua s0).result = some res) :
    res.line1_data.1 = max i1 i2 + 1 ∧ res.line2_data.1 = max i1 i2 + 2 := by
  have hbody : ∀ o, (intersectBody i1 i2 l1 l2 o s0).result = some res →
      res.line1_data.1 = max i1 i2 + 1 ∧ res.line2_data.1 = max i1 i2 + 2 := by
    intro o h
    cases hj : jeq (denomOf l1 l2) (some 0) with
    | true => cases hp : o.onParallel <;> simp [intersectBody, hj, hp] at h
    | false =>
      have hb : intersectBody i1 i2 l1 l2 o s0 =
          intersectCore i1 i2 l1 l2 o s0 (icptXOf l1 l2) (icptYOf l1 l2) (hitOf l1 l2) := by
        simp [intersectBody, hj]
      rw [hb] at h
      exact core_result_ids i1 i2 l1 l2 o s0 _ _ _ res h
  simp only [getLineIntersectionData] at hres
  by_cases hfk : (firstTwoOk l1 && firstTwoOk l2) = true
  · rw [if_pos hfk] at hres
    by_cases hlen : (l1.length ≤ 1 ∨ l2.length ≤ 1)
    · rw [if_pos hlen] at hres; simp [errOut] at hres
    · rw [if_neg hlen] at hres
      cases ua with
      | notObj => simp [errOut] at hres
      | absent => exact hbody _ hres
      | obj o => exact hbody _ hres
  · rw [if_neg hfk] at hres; simp [errOut] at hres

/-- C5 counterexample: when the icptPoint option is a labeled object that
is itself an element of line1 (at an index the validation never looks at),
a successful call overwrites that object's x/y fields in place, so the deep
content of the caller's line1 argument is changed by the call. -/
theorem C5_alias_counterexample :
    renderLine
      (getLineIntersectionData
        (.arr 0 [.pt (some 0) (some 1), .pt (some 2) (some 1), .ref 0, .pt (some 4) (some 1)])
        (.arr 1 [.pt (some 1) (some 0), .pt (some 1) (some 2)])
        (.obj { icptPoint := some (.objRef 0) }) defStore).store
      [.pt (some 0) (some 1), .pt (some 2) (some 1), .ref 0, .pt (some 4) (some 1)] ≠
    renderLine defStore
      [.pt (some 0) (some 1), .pt (some 2) (some 1), .ref 0, .pt (some 4) (some 1)] := by
  norm_num [getLineIntersectionData, intersectBody, intersectCore, denomOf, xNumOf, yNumOf,
    icptXOf, icptYOf, hitOf, updStore, mergeOpts, firstTwoOk, insertPoint, replaceEq,
    insertCmp, sortJs, lineCmp, sortX, sortY, idx0, idx1, firstPt, lastPt,
    hookIsFn, hookRetFalse, defaultAlready, defaultValidate, renderLine, renderElem, defStore]

/-- No-aliasing side condition: the icptPoint option, when it is a labeled
object, is not itself an element of either input line. -/
def noAlias (ua : UserArg) (l1 l2 : List PtVal) : Prop :=
  ∀ r, (mergeOpts ua).icptPoint = .objRef r → PtVal.ref r ∉ l1 ∧ PtVal.ref r ∉ l2

/-- C5 amended: provided the icptPoint option (when supplied as a labeled
object) does not alias an element of either line, every call leaves the
deep content of the caller's line arguments unchanged, and on success the
returned line sequences carry fresh array identities distinct from both
input arrays. -/
theorem C5_no_mutation_fresh_copies (i1 i2 : Nat) (l1 l2 : List PtVal)
    (ua : UserArg) (s0 : Store) (hal : noAlias ua l1 l2) :
    renderLine (getLineIntersectionData (.arr i1 l1) (.arr i2 l2) ua s0).store l1 =
      renderLine s0 l1 ∧
    renderLine (getLineIntersectionData (.arr i1 l1) (.arr i2 l2) ua s0).store l2 =
      renderLine s0 l2 ∧
    ∀ res, (getLineIntersectionData (.arr i1 l1) (.arr i2 l2) ua s0).result = some res →
      res.line1_data.1 ≠ i1 ∧ res.line1_data.1 ≠ i2 ∧
      res.line2_data.1 ≠ i1 ∧ res.line2_data.1 ≠ i2 := by
  have hids : ∀ res,
      (getLineIntersectionData (.arr i1 l1) (.arr i2 l2) ua s0).result = some res →
      res.line1_data.1 ≠ i1 ∧ res.line1_data.1 ≠ i2 ∧
      res.line2_data.1 ≠ i1 ∧ res.line2_data.1 ≠ i2 := by
    intro res hres
    obtain ⟨h1, h2⟩ := run_result_ids i1 i2 l1 l2 ua s0 res hres
    have m1 := Nat.le_max_left i1 i2
    have m2 := Nat.le_max_right i1 i2
    omega
  rcases run_store_shape (.arr i1 l1) (.arr i2 l2) ua s0 with h | ⟨r, icx, icy, h1, h2⟩
  · rw [h]
    exact ⟨rfl, rfl, hids⟩
  · rw [h2]
    obtain ⟨ha1, ha2⟩ := hal r h1
    exact ⟨renderLine_upd s0 r icx icy l1 ha1, renderLine_upd s0 r icx icy l2 ha2, hids⟩

/-- Witness for C5 amended on the example lines with default options. -/
theorem C5_no_mutation_fresh_copies_witness :
    renderLine
      (getLineIntersectionData (.arr 0 [.pt (some 0) (some 1), .pt (some 2) (some 1)])
        (.arr 1 [.pt (some 1) (some 0), .pt (some 1) (some 2)]) .absent defStore).store
      [.pt (some 0) (some 1), .pt (some 2) (some 1)] =
    renderLine defStore [.pt (some 0) (some 1), .pt (some 2) (some 1)] ∧
    renderLine
      (getLineIntersectionData (.arr 0 [.pt (some 0) (some 1), .pt (some 2) (some 1)])
        (.arr 1 [.pt (some 1) (some 0), .pt (some 1) (some 2)]) .absent defStore).store
      [.pt (some 1) (some 0), .pt (some 1) (some 2)] =
    renderLine defStore [.pt (some 1) (some 0), .pt (some 1) (some 2)] := by
  have h := C5_no_mutation_fresh_copies 0 1
    [.pt (some 0) (some 1), .pt (some 2) (some 1)]
    [.pt (some 1) (some 0), .pt (some 1) (some 2)] .absent defStore
    (by intro r hr; simp [mergeOpts] at hr)
  exact ⟨h.1, h.2.1⟩

/-- C6: the validation loop inspects only the elements at indices 0 and 1,
so a malformed element at index 2 (the bare number 7) slips through: the
call returns a full result with no diagnostic instead of the documented
no-result-plus-diagnostic for arguments not of the form
[[x1, y1], ..., [xn, yn]]. -/
theorem C6_unvalidated_element_returns_result :
    (getLineIntersectionData
      (.arr 0 [.pt (some 0) (some 1), .pt (some 2) (some 1), .num 7, .pt (some 4) (some 1)])
      (.arr 1 [.pt (some 1) (some 0), .pt (some 1) (some 2)])
      .absent defStore).result.isSome = true ∧
    (getLineIntersectionData
      (.arr 0 [.pt (some 0) (some 1), .pt (some 2) (some 1), .num 7, .pt (some 4) (some 1)])
      (.arr 1 [.pt (some 1) (some 0), .pt (some 1) (some 2)])
      .absent defStore).errors = [] := by
  refine ⟨?_, ?_⟩ <;>
    norm_num [getLineIntersectionData, intersectBody, intersectCore, denomOf, xNumOf, yNumOf,
      icptXOf, icptYOf, hitOf, updStore, mergeOpts, firstTwoOk, insertPoint, replaceEq,
      insertCmp, sortJs, lineCmp, sortX, sortY, idx0, idx1, firstPt, lastPt,
      hookIsFn, hookRetFalse, defaultAlready, defaultValidate]

/-- C8: the filter loop skips null elements, non-array non-number elements
and pairs with a null coordinate; a bare number at position i is retained
as (i, value); the output is exactly one pair (x, slope*x + intercept) per
retained sample in order; and on the categorical input [5, 7, 9] the x
values are [0, 1, 2] with slope 2 and intercept 5. -/
theorem C8_trendline_filter_categorical :
    getTrendlineData [.snum 5, .snum 7, .snum 9] =
      { data := [(0, 5), (1, 7), (2, 9)], slope := 2, intercept := 5 } ∧
    (∀ rest i, retained (Sample.snull :: rest) i = retained rest (i + 1)) ∧
    (∀ rest i, retained (Sample.sother :: rest) i = retained rest (i + 1)) ∧
    (∀ rest i y, retained (Sample.spair none y :: rest) i = retained rest (i + 1)) ∧
    (∀ rest i x, retained (Sample.spair x none :: rest) i = retained rest (i + 1)) ∧
    (∀ rest i x y, retained (Sample.spair (some x) (some y) :: rest) i =
      (x, y) :: retained rest (i + 1)) ∧
    (∀ rest i q, retained (Sample.snum q :: rest) i =
      ((i : ℚ), q) :: retained rest (i + 1)) ∧
    (∀ samples, (getTrendlineData samples).data = (retained samples 0).map fun p =>
      (p.1, (getTrendlineData samples).slope * p.1 + (getTrendlineData samples).intercept)) := by
  refine ⟨?_, fun rest i => rfl, fun rest i => rfl, ?_, ?_, fun rest i x y => rfl,
    fun rest i q => rfl, fun samples => rfl⟩
  · norm_num [getTrendlineData, retained, regression, sumX, sumY, sumXY, sumXX]
  · intro rest i y; cases y <;> rfl
  · intro rest i x; cases x <;> rfl

@[simp] lemma sumX_eq (l : List (ℚ × ℚ)) : sumX l = (l.map fun p => p.1).sum := by
  have key : ∀ (t : List (ℚ × ℚ)) (a : ℚ),
      t.foldl (fun acc p => acc + p.1) a = a + (t.map fun p => p.1).sum := by
    intro t
    induction t with
    | nil => simp
    | cons p r ih => intro a; simp [List.foldl_cons, ih, add_assoc]
  simpa using key l 0

@[simp] lemma sumY_eq (l : List (ℚ × ℚ)) : sumY l = (l.map fun p => p.2).sum := by
  have key : ∀ (t : List (ℚ × ℚ)) (a : ℚ),
      t.foldl (fun acc p => acc + p.2) a = a + (t.map fun p => p.2).sum := by
    intro t
    induction t with
    | nil => simp
    | cons p r ih => intro a; simp [List.foldl_cons, ih, add_assoc]
  simpa using key l 0

@[simp] lemma sumXY_eq (l : List (ℚ × ℚ)) : sumXY l = (l.map fun p => p.1 * p.2).sum := by
  have key : ∀ (t : List (ℚ × ℚ)) (a : ℚ),
      t.foldl (fun acc p => acc + p.1 * p.2) a = a + (t.map fun p => p.1 * p.2).sum := by
    intro t
    induction t with
    | nil => simp
    | cons p r ih => intro a; simp [List.foldl_cons, ih, add_assoc]
  simpa using key l 0

@[simp] lemma sumXX_eq (l : List (ℚ × ℚ)) : sumXX l = (l.map fun p => p.1 * p.1).sum := by
  have key : ∀ (t : List (ℚ × ℚ)) (a : ℚ),
      t.foldl (fun acc p => acc + p.1 * p.1) a = a + (t.map fun p => p.1 * p.1).sum := by
    intro t
    induction t with
    | nil => simp
    | cons p r ih => intro a; simp [List.foldl_cons, ih, add_assoc]
  simpa using key l 0

lemma sumY_on_line (m b : ℚ) (l : List (ℚ × ℚ)) (h : ∀ p ∈ l, p.2 = m * p.1 + b) :
    sumY l = m * sumX l + (l.length : ℚ) * b := by
  induction l with
  | nil => simp
  | cons p t ih =>
    have hp := h p (List.mem_cons_self p t)
    have ht := ih fun q hq => h q (List.mem_cons_of_mem _ hq)
    simp only [sumY_eq, sumX_eq, List.map_cons, List.sum_cons, List.length_cons] at *
    rw [hp, ht]
    push_cast
    ring

lemma sumXY_on_line (m b : ℚ) (l : List (ℚ × ℚ)) (h : ∀ p ∈ l, p.2 = m * p.1 + b) :
    sumXY l = m * sumXX l + b * sumX l := by
  induction l with
  | nil => simp
  | cons p t ih =>
    have hp := h p (List.mem_cons_self p t)
    have ht := ih fun q hq => h q (List.mem_cons_of_mem _ hq)
    simp only [sumXY_eq, sumXX_eq, sumX_eq, List.map_cons, List.sum_cons] at *
    rw [hp, ht]
    ring

lemma sq_expand (x : ℚ) (xs : List ℚ) :
    (xs.map fun t => (x - t) * (x - t)).sum =
      (xs.length : ℚ) * (x * x) - 2 * x * xs.sum + (xs.map fun t => t * t).sum := by
  induction xs with
  | nil => simp
  | cons a t ih =>
    simp only [List.map_cons, List.sum_cons, List.length_cons, ih]
    push_cast
    ring

lemma quad_cons (x : ℚ) (xs : List ℚ) :
    (((x :: xs).length : ℚ) * ((x :: xs).map fun t => t * t).sum -
      (x :: xs).sum * (x :: xs).sum) =
    ((xs.length : ℚ) * (xs.map fun t => t * t).sum - xs.sum * xs.sum) +
      (xs.map fun t => (x - t) * (x - t)).sum := by
  rw [sq_expand]
  simp only [List.map_cons, List.sum_cons, List.length_cons]
  push_cast
  ring

lemma quad_nonneg (xs : List ℚ) :
    0 ≤ (xs.length : ℚ) * (xs.map fun t => t * t).sum - xs.sum * xs.sum := by
  induction xs with
  | nil => simp
  | cons x t ih =>
    rw [quad_cons]
    have hs : 0 ≤ (t.map fun u => (x - u) * (x - u)).sum := by
      refine List.sum_nonneg ?_
      intro a ha
      rcases List.mem_map.mp ha with ⟨u, _, rfl⟩
      exact mul_self_nonneg _
    linarith

lemma quad_pos (xs : List ℚ) (a b : ℚ) (ha : a ∈ xs) (hb : b ∈ xs) (hab : a ≠ b) :
    0 < (xs.length : ℚ) * (xs.map fun t => t * t).sum - xs.sum * xs.sum := by
  induction xs with
  | nil => simp at ha
  | cons x t ih =>
    rw [quad_cons]
    have hnn : ∀ y ∈ t.map fun u => (x - u) * (x - u), (0:ℚ) ≤ y := by
      intro y hy
      rcases List.mem_map.mp hy with ⟨u, _, rfl⟩
      exact mul_self_nonneg _
    rcases List.mem_cons.mp ha with rfl | ha'
    · rcases List.mem_cons.mp hb with rfl | hb'
      · exact absurd rfl hab
      · have h1 : (a - b) * (a - b) ∈ t.map fun u => (a - u) * (a - u) :=
          List.mem_map_of_mem _ hb'
        have h2 := List.single_le_sum hnn _ h1
        have h3 : 0 < (a - b) * (a - b) :=
          mul_self_pos.mpr (sub_ne_zero.mpr hab)
        have h4 := quad_nonneg t
        linarith
    · rcases List.mem_cons.mp hb with rfl | hb'
      · have h1 : (b - a) * (b - a) ∈ t.map fun u => (b - u) * (b - u) :=
          List.mem_map_of_mem _ ha'
        have h2 := List.single_le_sum hnn _ h1
        have h3 : 0 < (b - a) * (b - a) :=
          mul_self_pos.mpr (sub_ne_zero.mpr fun h => hab h.symm)
        have h4 := quad_nonneg t
        linarith
      · have h4 := ih ha' hb'
        have h5 := List.sum_nonneg hnn
        linarith

lemma map_on_line (m b : ℚ) (l : List (ℚ × ℚ)) (h : ∀ p ∈ l, p.2 = m * p.1 + b) :
    (l.map fun p => (p.1, m * p.1 + b)) = l := by
  induction l with
  | nil => rfl
  | cons p t ih =>
    rw [List.map_cons, ih fun q hq => h q (List.mem_cons_of_mem _ hq)]
    have hp : (p.1, m * p.1 + b) = p := by
      rw [← h p (List.mem_cons_self p t)]
    rw [hp]

/-- C9: fitting samples that lie exactly on y = m*x + b, with at least two
distinct retained x values, recovers slope m and intercept b exactly in
rational arithmetic, and every fitted point equals the corresponding
retained input point. -/
theorem C9_trendline_roundtrip (m b : ℚ) (samples : List Sample)
    (hline : ∀ p ∈ retained samples 0, p.2 = m * p.1 + b)
    (hdist : ∃ p ∈ retained samples 0, ∃ q ∈ retained samples 0, p.1 ≠ q.1) :
    (getTrendlineData samples).slope = m ∧
    (getTrendlineData samples).intercept = b ∧
    (getTrendlineData samples).data = retained samples 0 := by
  obtain ⟨p, hp, q, hq, hpq⟩ := hdist
  have hD : 0 < ((retained samples 0).length : ℚ) * sumXX (retained samples 0) -
      sumX (retained samples 0) * sumX (retained samples 0) := by
    have hkey := quad_pos ((retained samples 0).map fun r => r.1) p.1 q.1
      (List.mem_map_of_mem _ hp) (List.mem_map_of_mem _ hq) hpq
    have e2 : (((retained samples 0).map fun r => r.1).map fun t => t * t).sum =
        sumXX (retained samples 0) := by
      rw [List.map_map, sumXX_eq]
      rfl
    rw [e2, List.length_map] at hkey
    simpa [sumX_eq] using hkey
  have hD' : ((retained samples 0).length : ℚ) * sumXX (retained samples 0) -
      sumX (retained samples 0) * sumX (retained samples 0) ≠ 0 := ne_of_gt hD
  have hlen : (retained samples 0).length ≠ 0 := by
    intro h0
    rw [List.length_eq_zero] at h0
    rw [h0] at hp
    cases hp
  have hN : ((retained samples 0).length : ℚ) ≠ 0 := Nat.cast_ne_zero.mpr hlen
  have hSY := sumY_on_line m b (retained samples 0) hline
  have hSXY := sumXY_on_line m b (retained samples 0) hline
  have hs : (((retained samples 0).length : ℚ) * sumXY (retained samples 0) -
      sumX (retained samples 0) * sumY (retained samples 0)) /
      (((retained samples 0).length : ℚ) * sumXX (retained samples 0) -
      sumX (retained samples 0) * sumX (retained samples 0)) = m := by
    rw [hSXY, hSY]
    rw [show ((retained samples 0).length : ℚ) *
        (m * sumXX (retained samples 0) + b * sumX (retained samples 0)) -
        sumX (retained samples 0) *
        (m * sumX (retained samples 0) + ((retained samples 0).length : ℚ) * b) =
        m * (((retained samples 0).length : ℚ) * sumXX (retained samples 0) -
        sumX (retained samples 0) * sumX (retained samples 0)) from by ring]
    rw [mul_div_assoc, div_self hD', mul_one]
  have hslope : (getTrendlineData samples).slope = m := by
    simp only [getTrendlineData, regression]
    exact hs
  have hint : (getTrendlineData samples).intercept = b := by
    simp only [getTrendlineData, regression]
    rw [hs, hSY]
    rw [show m * sumX (retained samples 0) +
        ((retained samples 0).length : ℚ) * b - m * sumX (retained samples 0) =
        ((retained samples 0).length : ℚ) * b from by ring]
    rw [mul_comm, mul_div_assoc, div_self hN, mul_one]
  refine ⟨hslope, hint, ?_⟩
  have hdata : (getTrendlineData samples).data = (retained samples 0).map fun r =>
      (r.1, (getTrendlineData samples).slope * r.1 + (getTrendlineData samples).intercept) :=
    rfl
  rw [hdata, hslope, hint]
  exact map_on_line m b (retained samples 0) hline

/-- Witness for C9 with m = 2, b = 5 on samples [[1,7],[3,11]]. -/
theorem C9_trendline_roundtrip_witness :
    (getTrendlineData [.spair (some 1) (some 7), .spair (some 3) (some 11)]).slope = 2 ∧
    (getTrendlineData [.spair (some 1) (some 7), .spair (some 3) (some 11)]).intercept = 5 ∧
    (getTrendlineData [.spair (some 1) (some 7), .spair (some 3) (some 11)]).data =
      retained [.spair (some 1) (some 7), .spair (some 3) (some 11)] 0 := by
  refine C9_trendline_roundtrip 2 5 _ ?_ ?_
  · intro p hp
    simp [retained] at hp
    rcases hp with rfl | rfl <;> norm_num
  · refine ⟨(1, 7), ?_, (3, 11), ?_, by norm_num⟩ <;> simp [retained]

/-- The comparator's effective x key of a proper point (used to state
sortedness; 0 for non-points). -/
def keyX : PtVal → ℚ
  | .pt (some a) _ => a
  | _ => 0

/-- The comparator's effective y key of a proper point. -/
def keyY : PtVal → ℚ
  | .pt _ (some bq) => bq
  | _ => 0

/-- A proper numeric pair both of whose coordinates are nonzero (nonzero
because the comparator's `a[0] || a.x` read treats a 0 coordinate as
falsy and falls through to an absent field). -/
def isGoodPt : PtVal → Bool
  | .pt (some a) (some bq) => decide (a ≠ 0) && decide (bq ≠ 0)
  | _ => false

/-- Direction-aware comparison on one axis. -/
def dirLe : Bool → ℚ → ℚ → Prop
  | true, a, b => a ≤ b
  | false, a, b => b ≤ a

/-- The ordering the spec asserts: x primary in the detected x direction,
y secondary in the detected y direction. -/
def relD (xA yA : Bool) (a b : PtVal) : Prop :=
  dirLe xA (keyX a) (keyX b) ∧ (keyX a = keyX b → dirLe yA (keyY a) (keyY b))

/-- A line is sorted by x primary / y secondary in the given per-axis
directions. -/
def sortedDir (xA yA : Bool) (l : List PtVal) : Prop := l.Pairwise (relD xA yA)

/-- All elements of a line are proper nonzero-coordinate points. -/
def GoodL (l : List PtVal) : Prop := ∀ e ∈ l, isGoodPt e = true

lemma good_shape (p : PtVal) (h : isGoodPt p = true) :
    ∃ a bq, p = .pt (some a) (some bq) ∧ a ≠ 0 ∧ bq ≠ 0 := by
  cases p with
  | pt x y =>
    cases x with
    | none => simp [isGoodPt] at h
    | some a =>
      cases y with
      | none => simp [isGoodPt] at h
      | some bq =>
        simp only [isGoodPt, Bool.and_eq_true, decide_eq_true_eq] at h
        exact ⟨a, bq, rfl, h.1, h.2⟩
  | ref r => simp [isGoodPt] at h
  | num q => simp [isGoodPt] at h

@[simp] lemma keyX_pt (a : ℚ) (y : JsNum) : keyX (.pt (some a) y) = a := rfl

@[simp] lemma keyY_pt (x : JsNum) (bq : ℚ) : keyY (.pt x (some bq)) = bq := rfl

lemma dirLe_of_eq (asc : Bool) (a b : ℚ) (h : a = b) : dirLe asc a b := by
  cases asc <;> simp [dirLe, h]

lemma lineCmp_good_eq (s : Store) (xA yA : Bool) (p q u v : ℚ)
    (hp : p ≠ 0) (hq : q ≠ 0) (hu : u ≠ 0) (hv : v ≠ 0) :
    lineCmp s xA yA (.pt (some p) (some q)) (.pt (some u) (some v)) =
      if p < u then (if xA then -1 else 1)
      else if u < p then (if xA then 1 else -1)
      else if q < v then (if yA then -1 else 1)
      else if v < q then (if yA then 1 else -1)
      else 0 := by
  simp [lineCmp, sortX, sortY, hp, hq, hu, hv]

lemma relD_of_lt (s : Store) (xA yA : Bool) (a b : PtVal)
    (ha : isGoodPt a = true) (hb : isGoodPt b = true)
    (h : lineCmp s xA yA a b < 0) : relD xA yA a b := by
  obtain ⟨p, q, rfl, hp, hq⟩ := good_shape a ha
  obtain ⟨u, v, rfl, hu, hv⟩ := good_shape b hb
  rw [lineCmp_good_eq s xA yA p q u v hp hq hu hv] at h
  simp only [relD, keyX_pt, keyY_pt]
  rcases lt_trichotomy p u with hx | hx | hx
  · rw [if_pos hx] at h
    cases xA with
    | true => exact ⟨hx.le, fun he => absurd (he ▸ hx) (lt_irrefl u)⟩
    | false => exact absurd h (by norm_num)
  · have hn1 : ¬ p < u := by rw [hx]; exact lt_irrefl u
    have hn2 : ¬ u < p := by rw [hx]; exact lt_irrefl u
    rw [if_neg hn1, if_neg hn2] at h
    rcases lt_trichotomy q v with hy | hy | hy
    · rw [if_pos hy] at h
      cases yA with
      | true => exact ⟨dirLe_of_eq xA p u hx, fun _ => hy.le⟩
      | false => exact absurd h (by norm_num)
    · have hm1 : ¬ q < v := by rw [hy]; exact lt_irrefl v
      have hm2 : ¬ v < q := by rw [hy]; exact lt_irrefl v
      rw [if_neg hm1, if_neg hm2] at h
      exact absurd h (lt_irrefl 0)
    · have hm1 : ¬ q < v := lt_asymm hy
      rw [if_neg hm1, if_pos hy] at h
      cases yA with
      | true => exact absurd h (by norm_num)
      | false => exact ⟨dirLe_of_eq xA p u hx, fun _ => hy.le⟩
  · have hn1 : ¬ p < u := lt_asymm hx
    rw [if_neg hn1, if_pos hx] at h
    cases xA with
    | true => exact absurd h (by norm_num)
    | false => exact ⟨hx.le, fun he => absurd (he ▸ hx) (lt_irrefl u)⟩

lemma relD_of_not_lt (s : Store) (xA yA : Bool) (a b : PtVal)
    (ha : isGoodPt a = true) (hb : isGoodPt b = true)
    (h : ¬(lineCmp s xA yA a b < 0)) : relD xA yA b a := by
  obtain ⟨p, q, rfl, hp, hq⟩ := good_shape a ha
  obtain ⟨u, v, rfl, hu, hv⟩ := good_shape b hb
  rw [lineCmp_good_eq s xA yA p q u v hp hq hu hv] at h
  simp only [relD, keyX_pt, keyY_pt]
  rcases lt_trichotomy p u with hx | hx | hx
  · rw [if_pos hx] at h
    cases xA with
    | true => exact absurd (by norm_num : (-1 : Int) < 0) h
    | false => exact ⟨hx.le, fun he => absurd (he ▸ hx) (lt_irrefl p)⟩
  · have hn1 : ¬ p < u := by rw [hx]; exact lt_irrefl u
    have hn2 : ¬ u < p := by rw [hx]; exact lt_irrefl u
    rw [if_neg hn1, if_neg hn2] at h
    rcases lt_trichotomy q v with hy | hy | hy
    · rw [if_pos hy] at h
      cases yA with
      | true => exact absurd (by norm_num : (-1 : Int) < 0) h
      | false => exact ⟨dirLe_of_eq xA u p hx.symm, fun _ => hy.le⟩
    · have hm1 : ¬ q < v := by rw [hy]; exact lt_irrefl v
      have hm2 : ¬ v < q := by rw [hy]; exact lt_irrefl v
      rw [if_neg hm1, if_neg hm2] at h
      exact ⟨dirLe_of_eq xA u p hx.symm, fun _ => dirLe_of_eq yA v q hy.symm⟩
    · have hm1 : ¬ q < v := lt_asymm hy
      rw [if_neg hm1, if_pos hy] at h
      cases yA with
      | true => exact ⟨dirLe_of_eq xA u p hx.symm, fun _ => hy.le⟩
      | false => exact absurd (by norm_num : (-1 : Int) < 0) h
  · have hn1 : ¬ p < u := lt_asymm hx
    rw [if_neg hn1, if_pos hx] at h
    cases xA with
    | true => exact ⟨hx.le, fun he => absurd (he ▸ hx) (lt_irrefl p)⟩
    | false => exact absurd (by norm_num : (-1 : Int) < 0) h

lemma relD_trans (xA yA : Bool) (a b c : PtVal)
    (h1 : relD xA yA a b) (h2 : relD xA yA b c) : relD xA yA a c := by
  cases xA <;> cases yA
  all_goals
    simp only [relD, dirLe] at h1 h2 ⊢
    obtain ⟨h1x, h1y⟩ := h1
    obtain ⟨h2x, h2y⟩ := h2
    refine ⟨by linarith, fun he => ?_⟩
    have e1 : keyX a = keyX b := by linarith
    have e2 : keyX b = keyX c := by linarith
    have hy1 := h1y e1
    have hy2 := h2y e2
    linarith

lemma pairwise_insertCmp (s : Store) (xA yA : Bool) (x : PtVal) (l : List PtVal)
    (hx : isGoodPt x = true) (hl : GoodL l) (hp : l.Pairwise (relD xA yA)) :
    (insertCmp (lineCmp s xA yA) x l).Pairwise (relD xA yA) := by
  induction l with
  | nil => simp [insertCmp]
  | cons y ys ih =>
    have hy : isGoodPt y = true := hl y (List.mem_cons_self y ys)
    have hys : GoodL ys := fun e he => hl e (List.mem_cons_of_mem _ he)
    obtain ⟨hyall, hpys⟩ := List.pairwise_cons.mp hp
    by_cases h : lineCmp s xA yA x y < 0
    · rw [insertCmp, if_pos h, List.pairwise_cons]
      refine ⟨?_, hp⟩
      intro z hz
      rcases List.mem_cons.mp hz with rfl | hz'
      · exact relD_of_lt s xA yA x z hx hy h
      · exact relD_trans xA yA x y z (relD_of_lt s xA yA x y hx hy h) (hyall z hz')
    · rw [insertCmp, if_neg h, List.pairwise_cons]
      refine ⟨?_, ih hys hpys⟩
      intro z hz
      rcases (mem_insertCmp (lineCmp s xA yA) x z ys).mp hz with rfl | hz'
      · exact relD_of_not_lt s xA yA z y hx hy h
      · exact hyall z hz'

lemma pairwise_sortJs (s : Store) (xA yA : Bool) (l : List PtVal) (hl : GoodL l) :
    (sortJs (lineCmp s xA yA) l).Pairwise (relD xA yA) := by
  have key : ∀ (t acc : List PtVal), GoodL t → GoodL acc → acc.Pairwise (relD xA yA) →
      (t.foldl (fun acc e => insertCmp (lineCmp s xA yA) e acc) acc).Pairwise (relD xA yA) := by
    intro t
    induction t with
    | nil => intro acc _ _ hacc; simpa using hacc
    | cons e t ih =>
      intro acc ht hacc hpacc
      rw [List.foldl_cons]
      refine ih _ (fun z hz => ht z (List.mem_cons_of_mem _ hz)) ?_ ?_
      · intro z hz
        rcases (mem_insertCmp (lineCmp s xA yA) e z acc).mp hz with hz' | hz'
        · subst hz'
          exact ht z (List.mem_cons_self z t)
        · exact hacc z hz'
      · exact pairwise_insertCmp s xA yA e acc (ht e (List.mem_cons_self e t)) hacc hpacc
  exact key l [] hl (fun e he => absurd he (List.not_mem_nil e)) (by simp)

/-- The remaining stages under fully default options: both hooks return
true, the intercept point materializes as the pair [icptX, icptY], and both
insertions run on the untouched store. -/
lemma core_default (i1 i2 : Nat) (l1 l2 : List PtVal) (s0 : Store)
    (icx icy : JsNum) (hit : Bool) :
    intersectCore i1 i2 l1 l2 (mergeOpts .absent) s0 icx icy hit =
    { result := some
        { icptX := icx, icptY := icy
          line1_data := (max i1 i2 + 1, insertPoint s0 icx icy (.pt icx icy) l1)
          line2_data := (max i1 i2 + 2, insertPoint s0 icx icy (.pt icx icy) l2) }
      store := s0, errors := [], parallelCalled := false
      alreadyCalled := hit, validateCalled := true } := by
  simp [intersectCore, mergeOpts, defaultAlready, defaultValidate, hookRetFalse, hookIsFn]

/-- C7 counterexample: line1 = [[2,1],[0,1]] has monotone descending x
values, yet after inserting the intersection point (1,1) the returned line1
is [[2,1],[0,1],[1,1]] — x run 2, 0, 1 — sorted in neither direction.  The
comparator reads coordinates as `a[0] || a.x`, and the falsy coordinate 0
falls through to the absent `.x` field, so the point [0,1] compares as
unordered against everything. -/
theorem C7_zero_coord_counterexample :
    Option.map (fun r => r.line1_data.2)
      (getLineIntersectionData (.arr 0 [.pt (some 2) (some 1), .pt (some 0) (some 1)])
        (.arr 1 [.pt (some 1) (some 0), .pt (some 1) (some 2)]) .absent
        defStore).result =
      some [.pt (some 2) (some 1), .pt (some 0) (some 1), .pt (some 1) (some 1)] ∧
    List.Chain' (fun a bq : ℚ => bq ≤ a)
      ([PtVal.pt (some 2) (some 1), PtVal.pt (some 0) (some 1)].map keyX) ∧
    ¬ List.Chain' (fun a bq : ℚ => bq ≤ a)
      ([PtVal.pt (some 2) (some 1), PtVal.pt (some 0) (some 1),
        PtVal.pt (some 1) (some 1)].map keyX) ∧
    ¬ List.Chain' (fun a bq : ℚ => a ≤ bq)
      ([PtVal.pt (some 2) (some 1), PtVal.pt (some 0) (some 1),
        PtVal.pt (some 1) (some 1)].map keyX) := by
  refine ⟨?_, by norm_num [keyX], by norm_num [keyX], by norm_num [keyX]⟩
  norm_num [getLineIntersectionData, intersectBody, intersectCore, denomOf, xNumOf, yNumOf,
    icptXOf, icptYOf, hitOf, updStore, mergeOpts, firstTwoOk, insertPoint, replaceEq,
    insertCmp, sortJs, lineCmp, sortX, sortY, idx0, idx1, firstPt, lastPt,
    hookIsFn, hookRetFalse, defaultAlready, defaultValidate]

/-- C7 amended: for a valid line1 with monotone x values all of whose
coordinates are nonzero, under default options, when the computed
intersection point has nonzero coordinates and does not coincide with an
existing point of line1, the returned line1 is sorted by x primary / y
secondary with each axis's direction detected independently from the
input's first and last point.  (The nonzero-coordinate hypotheses are
forced by the comparator's falsy-coordinate fallback.) -/
theorem C7_sorted_insertion (i1 i2 : Nat) (x1 y1 x2 y2 x3 y3 x4 y4 : ℚ)
    (mid1 mid2 : List PtVal) (s0 : Store) (res : IcptRes)
    (h1 : ∀ e ∈ mid1, isArrayElem e = true) (h2 : ∀ e ∈ mid2, isArrayElem e = true)
    (hgood : GoodL (mkLine x1 y1 mid1 x2 y2))
    (hmono : List.Chain' (fun a bq : ℚ => a ≤ bq) ((mkLine x1 y1 mid1 x2 y2).map keyX) ∨
             List.Chain' (fun a bq : ℚ => bq ≤ a) ((mkLine x1 y1 mid1 x2 y2).map keyX))
    (hd : denomQ x1 y1 x2 y2 x3 y3 x4 y4 ≠ 0)
    (hicx : icptXQ x1 y1 x2 y2 x3 y3 x4 y4 ≠ 0)
    (hicy : icptYQ x1 y1 x2 y2 x3 y3 x4 y4 ≠ 0)
    (hnew : replaceEq (some (icptXQ x1 y1 x2 y2 x3 y3 x4 y4))
      (some (icptYQ x1 y1 x2 y2 x3 y3 x4 y4))
      (.pt (some (icptXQ x1 y1 x2 y2 x3 y3 x4 y4))
           (some (icptYQ x1 y1 x2 y2 x3 y3 x4 y4)))
      (mkLine x1 y1 mid1 x2 y2) = none)
    (hres : (getLineIntersectionData (.arr i1 (mkLine x1 y1 mid1 x2 y2))
      (.arr i2 (mkLine x3 y3 mid2 x4 y4)) .absent s0).result = some res) :
    sortedDir (decide (x1 ≤ x2)) (decide (y1 ≤ y2)) res.line1_data.2 := by
  rw [run_mkLine i1 i2 x1 y1 x2 y2 x3 y3 x4 y4 mid1 mid2 .absent s0 h1 h2
        (fun h => UserArg.noConfusion h),
      body_nonpar i1 i2 x1 y1 x2 y2 x3 y3 x4 y4 mid1 mid2 (mergeOpts .absent) s0 hd,
      core_default] at hres
  simp only [Option.some.injEq] at hres
  subst hres
  show sortedDir (decide (x1 ≤ x2)) (decide (y1 ≤ y2))
    (insertPoint s0 (some (icptXQ x1 y1 x2 y2 x3 y3 x4 y4))
      (some (icptYQ x1 y1 x2 y2 x3 y3 x4 y4))
      (.pt (some (icptXQ x1 y1 x2 y2 x3 y3 x4 y4))
           (some (icptYQ x1 y1 x2 y2 x3 y3 x4 y4)))
      (mkLine x1 y1 mid1 x2 y2))
  rw [insertPoint]
  rw [hnew]
  simp only [firstPt_mkLine, lastPt_mkLine, idx0, idx1, jle_some]
  refine pairwise_sortJs s0 (decide (x1 ≤ x2)) (decide (y1 ≤ y2)) _ ?_
  intro e he
  rcases List.mem_append.mp he with hin | hin
  · exact hgood e hin
  · have he' : e = .pt (some (icptXQ x1 y1 x2 y2 x3 y3 x4 y4))
        (some (icptYQ x1 y1 x2 y2 x3 y3 x4 y4)) := by simpa using hin
    rw [he']
    simp [isGoodPt, hicx, hicy]

/-- Witness for C7 amended on the descending line1 = [[5,3],[1,3]] and the
vertical line2 = [[2,1],[2,8]]: the point (2,3) is inserted and the result
[[5,3],[2,3],[1,3]] is sorted descending by x. -/
theorem C7_sorted_insertion_witness :
    sortedDir (decide ((5:ℚ) ≤ 1)) (decide ((3:ℚ) ≤ 3))
      [PtVal.pt (some 5) (some 3), PtVal.pt (some 2) (some 3),
       PtVal.pt (some 1) (some 3)] := by
  have hres : (getLineIntersectionData (.arr 0 (mkLine 5 3 [] 1 3))
      (.arr 1 (mkLine 2 1 [] 2 8)) .absent defStore).result =
      some { icptX := some 2, icptY := some 3
             line1_data := (2, [.pt (some 5) (some 3), .pt (some 2) (some 3),
                                .pt (some 1) (some 3)])
             line2_data := (3, [.pt (some 2) (some 1), .pt (some 2) (some 3),
                                .pt (some 2) (some 8)]) } := by
    norm_num [getLineIntersectionData, intersectBody, intersectCore, denomOf, xNumOf, yNumOf,
      icptXOf, icptYOf, hitOf, updStore, mergeOpts, mkLine, firstTwoOk, insertPoint,
      replaceEq, insertCmp, sortJs, lineCmp, sortX, sortY, idx0, idx1, firstPt, lastPt,
      hookIsFn, hookRetFalse, defaultAlready, defaultValidate]
  exact C7_sorted_insertion 0 1 5 3 1 3 2 1 2 8 [] [] defStore _
    (by simp) (by simp)
    (by intro e he; simp [mkLine] at he; rcases he with rfl | rfl <;> norm_num [isGoodPt])
    (Or.inr (by norm_num [mkLine, keyX]))
    (by norm_num [denomQ])
    (by norm_num [icptXQ, xNumQ, denomQ])
    (by norm_num [icptYQ, yNumQ, denomQ])
    (by norm_num [replaceEq, mkLine, idx0, idx1, icptXQ, icptYQ, xNumQ, yNumQ, denomQ])
    hres
